import Mathlib

/-!
Verification development for the simple-bank-api transaction engine.

The definitions below are a shallow embedding of the Python source under
`banking/server`: enumerations from `models/enums.py`, the transaction
strategies and factory from `utils/strategies.py` (the module defines each
class several times; the embedding follows the last definitions, which are
the ones Python keeps), the code generator from `utils/transactions.py`
(together with a byte-level SHA-256, modelling `hashlib.sha256` from the
standard library), and the orchestrator `initiate_transaction` from
`controllers/transactions.py`.

Monetary values (SQL `DECIMAL` balances and float amounts) are modelled as
rationals; account and transaction rows as Lean structures; the database
session as an explicit balance map `Nat → Option ℚ` keyed by account id;
Python exceptions as an error type returned in `Except`.
-/

namespace Bank

/-- `TransactionType` from `models/enums.py`: DEPOSIT, WITHDRAWAL, TRANSFER,
PAYMENT.  Note the enumeration has no CREDIT member. -/
inductive TransactionType
  | deposit
  | withdrawal
  | transfer
  | payment
deriving DecidableEq, Inhabited

/-- `TransactionStatus` from `models/enums.py`: FAILED, SUCCESS, PENDING. -/
inductive TransactionStatus
  | failed
  | success
  | pending
deriving DecidableEq, Inhabited

/-- Python exceptions raised by the embedded code: `ValueError` from the
strategies and the factory, `ObjectNotFound` and `BadRequest` from
`utils/exceptions.py`, and attribute errors on `None` values. -/
inductive PyErr
  | valueError (msg : String)
  | objectNotFound (msg : String)
  | badRequest (msg : String)
  | attributeError (msg : String)
deriving DecidableEq, Inhabited

/-- A value stored in a transaction's metadata dict: the orchestrator stores
strings, numbers and possibly `None`; the transfer strategy expects an
integer account id. -/
inductive MetaVal
  | str (s : String)
  | num (q : ℚ)
  | int (n : Nat)
  | pyNone
deriving DecidableEq, Inhabited

/-- Python truthiness of a metadata value: `None`, `0` and the empty string
are falsy. -/
def pyTruthy : MetaVal → Bool
  | .str s => s != ""
  | .num q => q != 0
  | .int n => n != 0
  | .pyNone => false

/-- `dict.get(key)`: the stored value, or `None` when the key is absent. -/
def lookupMeta (md : List (String × MetaVal)) (k : String) : MetaVal :=
  match md.find? (fun p => p.1 == k) with
  | some p => p.2
  | none => .pyNone

/-- The balances of the session's account rows, keyed by account id;
`none` means no such account row exists. -/
def Balances : Type := Nat → Option ℚ

/-- Writing one account's balance back to the session. -/
def updateBal (bal : Balances) (i : Nat) (v : ℚ) : Balances :=
  fun j => if j = i then some v else bal j

/-- The balance of account `i`, defaulting to `0` for a missing row (used
only to state sums; the theorems' hypotheses keep the rows present). -/
def getBal (bal : Balances) (i : Nat) : ℚ :=
  (bal i).getD 0

/-- Observable effects of a strategy execution: lock operations (from
`utils/cache.py`, were any taken), the `session.get` account fetch, and the
two balance mutations. -/
inductive Event
  | acquireLock (key : String)
  | releaseLock (key : String)
  | getAccount (id : Nat)
  | debit (id : Nat) (amount : ℚ)
  | credit (id : Nat) (amount : ℚ)
deriving DecidableEq, Inhabited

/-- Whether an event acquires a lock. -/
def isLockAcquire : Event → Bool
  | .acquireLock _ => true
  | _ => false

/-- Whether an event mutates an account balance. -/
def isBalanceMutation : Event → Bool
  | .debit _ _ => true
  | .credit _ _ => true
  | _ => false

/-- `construct_resource_lock_key` from `utils/cache.py` for an `Account`
row: the string `lock:Account-` followed by the id. -/
def construct_resource_lock_key (id : Nat) : String :=
  "lock:" ++ "Account" ++ "-" ++ toString id

/-- Claim-side predicate, following the spec's words: along the trace,
every balance mutation happens only after exclusive locks on both the
source and the destination account keys have been acquired. -/
def checkLocks (srcKey tgtKey : String) (acquired : List String) :
    List Event → Bool
  | [] => true
  | .acquireLock k :: rest => checkLocks srcKey tgtKey (k :: acquired) rest
  | e :: rest =>
    if isBalanceMutation e then
      acquired.contains srcKey && acquired.contains tgtKey &&
        checkLocks srcKey tgtKey acquired rest
    else
      checkLocks srcKey tgtKey acquired rest

/-- `CreditTransaction.execute` (last definition in `utils/strategies.py`):
`transaction.account.balance += transaction.amount`, unconditionally. -/
def creditExecute (balance : ℚ) (amount : ℚ) : ℚ :=
  balance + amount

/-- Result of `WithdrawalTransaction.execute` on one account: the raised
error if any, the account's balance afterwards, and the transaction's
status afterwards. -/
structure WithdrawResult where
  outcome : Except PyErr Unit
  balance : ℚ
  status : TransactionStatus

/-- `WithdrawalTransaction.execute` (last definition in
`utils/strategies.py`): raise `ValueError("Insufficient funds")` when
`transaction.account.balance < transaction.amount`, otherwise decrement the
balance.  The transaction's status is never written. -/
def withdrawExecute (balance : ℚ) (amount : ℚ) (st : TransactionStatus) :
    WithdrawResult :=
  if balance < amount then
    ⟨.error (.valueError "Insufficient funds"), balance, st⟩
  else
    ⟨.ok (), balance - amount, st⟩

/-- Result of `TransferTransaction.execute`: the raised error if any, the
session's balances afterwards, the transaction's status afterwards, and the
trace of observable effects. -/
structure TransferResult where
  outcome : Except PyErr Unit
  balances : Balances
  status : TransactionStatus
  events : List Event

/-- `TransferTransaction.execute` (last definition in
`utils/strategies.py`), for a transaction on account `sourceId` of the
given amount and metadata dict:
read `metadata.get("target_account_id")` and raise when it is falsy;
fetch the target row with `session.get(Account, target_account_id)`;
raise `ValueError("Insufficient funds")` when the source balance is below
the amount; otherwise debit the source and credit the target.  A truthy
non-integer target id makes the primary-key fetch fail before any mutation;
a missing target row is `None`, whose `.balance` access fails only after
the source was already debited.  No lock is ever taken and the status is
never written. -/
def transferExecute (bal : Balances) (sourceId : Nat) (amount : ℚ)
    (md : List (String × MetaVal)) (st : TransactionStatus) : TransferResult :=
  let tgt := lookupMeta md "target_account_id"
  if pyTruthy tgt then
    match tgt with
    | .int tid =>
      match bal sourceId with
      | some sb =>
        if sb < amount then
          ⟨.error (.valueError "Insufficient funds"), bal, st, [.getAccount tid]⟩
        else
          match updateBal bal sourceId (sb - amount) tid with
          | some tb =>
            ⟨.ok (), updateBal (updateBal bal sourceId (sb - amount)) tid (tb + amount),
              st, [.getAccount tid, .debit sourceId amount, .credit tid amount]⟩
          | none =>
            ⟨.error (.attributeError "NoneType has no attribute balance"),
              updateBal bal sourceId (sb - amount), st,
              [.getAccount tid, .debit sourceId amount]⟩
      | none =>
        ⟨.error (.attributeError "transaction has no account row"), bal, st,
          [.getAccount tid]⟩
    | _ =>
      ⟨.error (.valueError "invalid primary key for session.get"), bal, st, []⟩
  else
    ⟨.error (.valueError "Target account ID must be specified for transfers"), bal, st, []⟩

/-- The concrete strategy objects returned by the factory. -/
inductive Strategy
  | creditStrategy
  | withdrawalStrategy
  | transferStrategy
deriving DecidableEq, Inhabited

/-- Python's display string for an enum member, used in the factory's error
message. -/
def TransactionType.pyName : TransactionType → String
  | .deposit => "TransactionType.DEPOSIT"
  | .withdrawal => "TransactionType.WITHDRAWAL"
  | .transfer => "TransactionType.TRANSFER"
  | .payment => "TransactionType.PAYMENT"

/-- The member `CREDIT` of `TransactionType`, as resolved against
`models/enums.py`: the enumeration has members DEPOSIT, WITHDRAWAL,
TRANSFER and PAYMENT only, so there is no such member.  (In CPython the
attribute access `TransactionType.CREDIT` in the factory raises
`AttributeError` outright; the embedding models the comparison against the
nonexistent member as never holding.) -/
def creditMember : Option TransactionType :=
  none

/-- `TransactionFactory.create` from `utils/strategies.py`: compare the
argument against `TransactionType.CREDIT` (see `creditMember`), then
WITHDRAWAL, then TRANSFER, and otherwise raise
`ValueError(f"Unknown transaction type: ...")`. -/
def TransactionFactory.create (t : TransactionType) : Except PyErr Strategy :=
  if creditMember = some t then .ok .creditStrategy
  else if t = .withdrawal then .ok .withdrawalStrategy
  else if t = .transfer then .ok .transferStrategy
  else .error (.valueError ("Unknown transaction type: " ++ t.pyName))

/-- One engine-applied balance mutation: a settlement of one transaction by
the corresponding strategy. -/
inductive EngineOp
  | credit (accountId : Nat) (amount : ℚ)
  | withdraw (accountId : Nat) (amount : ℚ)
  | transfer (sourceId : Nat) (amount : ℚ) (md : List (String × MetaVal))

/-- The amount carried by an engine operation. -/
def EngineOp.amount : EngineOp → ℚ
  | .credit _ a => a
  | .withdraw _ a => a
  | .transfer _ a _ => a

/-- Applying one engine operation to the session's balances.  A transaction
row always carries its account row, so the credit and withdrawal cases on a
missing account id cannot occur; they are modelled as leaving the balances
unchanged. -/
def engineStep (bal : Balances) : EngineOp → Balances
  | .credit i a =>
    match bal i with
    | some b => updateBal bal i (creditExecute b a)
    | none => bal
  | .withdraw i a =>
    match bal i with
    | some b => updateBal bal i (withdrawExecute b a .pending).balance
    | none => bal
  | .transfer i a md => (transferExecute bal i a md .pending).balances

/-- A sequence of engine-applied mutations, applied in order. -/
def applyOps (ops : List EngineOp) (bal : Balances) : Balances :=
  ops.foldl engineStep bal

/-- Every existing account row has a non-negative balance. -/
def allNonneg (bal : Balances) : Prop :=
  ∀ i b, bal i = some b → 0 ≤ b

/-! ### SHA-256 (`hashlib.sha256`) over byte lists, FIPS 180-4 -/

/-- Truncation to a 32-bit word. -/
def truncate32 (n : Nat) : Nat :=
  n % 4294967296

/-- Right rotation of a 32-bit word by `k` bits. -/
def rotr32 (k x : Nat) : Nat :=
  truncate32 ((x >>> k) ||| (x <<< (32 - k)))

/-- The SHA-256 choice function `Ch(x, y, z)`. -/
def shaCh (x y z : Nat) : Nat :=
  (x &&& y) ^^^ ((x ^^^ 4294967295) &&& z)

/-- The SHA-256 majority function `Maj(x, y, z)`. -/
def shaMaj (x y z : Nat) : Nat :=
  (x &&& y) ^^^ (x &&& z) ^^^ (y &&& z)

/-- The SHA-256 compression function Sigma0. -/
def bigSigma0 (x : Nat) : Nat :=
  rotr32 2 x ^^^ rotr32 13 x ^^^ rotr32 22 x

/-- The SHA-256 compression function Sigma1. -/
def bigSigma1 (x : Nat) : Nat :=
  rotr32 6 x ^^^ rotr32 11 x ^^^ rotr32 25 x

/-- The SHA-256 message-schedule function sigma0. -/
def smallSigma0 (x : Nat) : Nat :=
  rotr32 7 x ^^^ rotr32 18 x ^^^ (x >>> 3)

/-- The SHA-256 message-schedule function sigma1. -/
def smallSigma1 (x : Nat) : Nat :=
  rotr32 17 x ^^^ rotr32 19 x ^^^ (x >>> 10)

/-- The 64 SHA-256 round constants, in decimal. -/
def shaK : List Nat :=
  [1116352408, 1899447441, 3049323471, 3921009573,
   961987163, 1508970993, 2453635748, 2870763221,
   3624381080, 310598401, 607225278, 1426881987,
   1925078388, 2162078206, 2614888103, 3248222580,
   3835390401, 4022224774, 264347078, 604807628,
   770255983, 1249150122, 1555081692, 1996064986,
   2554220882, 2821834349, 2952996808, 3210313671,
   3336571891, 3584528711, 113926993, 338241895,
   666307205, 773529912, 1294757372, 1396182291,
   1695183700, 1986661051, 2177026350, 2456956037,
   2730485921, 2820302411, 3259730800, 3345764771,
   3516065817, 3600352804, 4094571909, 275423344,
   430227734, 506948616, 659060556, 883997877,
   958139571, 1322822218, 1537002063, 1747873779,
   1955562222, 2024104815, 2227730452, 2361852424,
   2428436474, 2756734187, 3204031479, 3329325298]

/-- The eight 32-bit words of the SHA-256 working state. -/
structure Hash8 where
  h0 : Nat
  h1 : Nat
  h2 : Nat
  h3 : Nat
  h4 : Nat
  h5 : Nat
  h6 : Nat
  h7 : Nat

/-- The SHA-256 initial hash value, in decimal. -/
def shaIV : Hash8 :=
  ⟨1779033703, 3144134277, 1013904242, 2773480762,
   1359893119, 2600822924, 528734635, 1541459225⟩

/-- The message bit length as eight big-endian bytes. -/
def lengthBytes (bitLen : Nat) : List Nat :=
  [(bitLen >>> 56) % 256, (bitLen >>> 48) % 256, (bitLen >>> 40) % 256,
   (bitLen >>> 32) % 256, (bitLen >>> 24) % 256, (bitLen >>> 16) % 256,
   (bitLen >>> 8) % 256, bitLen % 256]

/-- SHA-256 padding: append `0x80`, zero bytes up to 56 mod 64, then the
bit length. -/
def padMessage (msg : List Nat) : List Nat :=
  let len := msg.length
  let padZeros := (120 - (len + 1) % 64) % 64
  msg ++ [0x80] ++ List.replicate padZeros 0 ++ lengthBytes (8 * len)

/-- Big-endian packing of bytes into 32-bit words. -/
def bytesToWords : List Nat → List Nat
  | b0 :: b1 :: b2 :: b3 :: rest =>
    ((b0 <<< 24) ||| (b1 <<< 16) ||| (b2 <<< 8) ||| b3) :: bytesToWords rest
  | _ => []

/-- Splitting a word list into 16-word blocks. -/
def chunkWords (ws : List Nat) : List (List Nat) :=
  if hw : ws = [] then []
  else ws.take 16 :: chunkWords (ws.drop 16)
termination_by ws.length
decreasing_by
  have hpos : 0 < ws.length := List.length_pos.mpr hw
  simp [List.length_drop]
  omega

/-- Indexing into the message schedule, `0` out of range. -/
def nthWord (ws : List Nat) (i : Nat) : Nat :=
  ws.getD i 0

/-- Extending the message schedule by `n` further words. -/
def scheduleAux : Nat → List Nat → List Nat
  | 0, ws => ws
  | n + 1, ws =>
    let i := ws.length
    let w := truncate32 (smallSigma1 (nthWord ws (i - 2)) + nthWord ws (i - 7) +
      smallSigma0 (nthWord ws (i - 15)) + nthWord ws (i - 16))
    scheduleAux n (ws ++ [w])

/-- The 64-word message schedule of one block. -/
def schedule (block : List Nat) : List Nat :=
  scheduleAux 48 block

/-- One SHA-256 round; `wk` is the round's `W + K` already truncated. -/
def compressStep (st : Hash8) (wk : Nat) : Hash8 :=
  let t1 := truncate32 (st.h7 + bigSigma1 st.h4 + shaCh st.h4 st.h5 st.h6 + wk)
  let t2 := truncate32 (bigSigma0 st.h0 + shaMaj st.h0 st.h1 st.h2)
  ⟨truncate32 (t1 + t2), st.h0, st.h1, st.h2,
   truncate32 (st.h3 + t1), st.h4, st.h5, st.h6⟩

/-- Compressing one 16-word block into the running hash value. -/
def compressBlock (hs : Hash8) (block : List Nat) : Hash8 :=
  let ws := schedule block
  let st := (List.zipWith (fun w k => truncate32 (w + k)) ws shaK).foldl compressStep hs
  ⟨truncate32 (hs.h0 + st.h0), truncate32 (hs.h1 + st.h1),
   truncate32 (hs.h2 + st.h2), truncate32 (hs.h3 + st.h3),
   truncate32 (hs.h4 + st.h4), truncate32 (hs.h5 + st.h5),
   truncate32 (hs.h6 + st.h6), truncate32 (hs.h7 + st.h7)⟩

/-- A 32-bit word as four big-endian bytes. -/
def wordBytes (w : Nat) : List Nat :=
  [(w >>> 24) % 256, (w >>> 16) % 256, (w >>> 8) % 256, w % 256]

/-- SHA-256 of a byte list: the 32 digest bytes. -/
def sha256 (msg : List Nat) : List Nat :=
  let blocks := chunkWords (bytesToWords (padMessage msg))
  let hs := blocks.foldl compressBlock shaIV
  [hs.h0, hs.h1, hs.h2, hs.h3, hs.h4, hs.h5, hs.h6, hs.h7].flatMap wordBytes

/-- UTF-8 encoding of one character (`str.encode()`). -/
def utf8EncodeChar (c : Char) : List Nat :=
  let n := c.toNat
  if n < 128 then [n]
  else if n < 2048 then
    [192 ||| (n >>> 6), 128 ||| (n &&& 63)]
  else if n < 65536 then
    [224 ||| (n >>> 12), 128 ||| ((n >>> 6) &&& 63), 128 ||| (n &&& 63)]
  else
    [240 ||| (n >>> 18), 128 ||| ((n >>> 12) &&& 63),
     128 ||| ((n >>> 6) &&& 63), 128 ||| (n &&& 63)]

/-- UTF-8 encoding of a string (`str.encode()`). -/
def utf8Encode (s : String) : List Nat :=
  s.data.flatMap utf8EncodeChar

/-- A nibble as a lowercase hex character. -/
def hexChar : Nat → Char
  | 0 => '0' | 1 => '1' | 2 => '2' | 3 => '3' | 4 => '4'
  | 5 => '5' | 6 => '6' | 7 => '7' | 8 => '8' | 9 => '9'
  | 10 => 'a' | 11 => 'b' | 12 => 'c' | 13 => 'd' | 14 => 'e'
  | _ => 'f'

/-- A byte as two hex characters, high nibble first. -/
def byteHex (b : Nat) : List Char :=
  [hexChar (b / 16 % 16), hexChar (b % 16)]

/-- `hash_obj.hexdigest()`: the digest bytes as a lowercase hex string. -/
def hexdigest (bs : List Nat) : String :=
  ⟨bs.flatMap byteHex⟩

/-- Python string slicing `s[:n]`. -/
def pyTake (s : String) (n : Nat) : String :=
  ⟨s.data.take n⟩

/-- The value of a hex digit (`int(..., 16)` per character); non-hex
characters do not occur in a digest. -/
def hexVal : Char → Nat
  | '0' => 0 | '1' => 1 | '2' => 2 | '3' => 3 | '4' => 4
  | '5' => 5 | '6' => 6 | '7' => 7 | '8' => 8 | '9' => 9
  | 'a' => 10 | 'b' => 11 | 'c' => 12 | 'd' => 13 | 'e' => 14
  | 'f' => 15 | 'A' => 10 | 'B' => 11 | 'C' => 12 | 'D' => 13
  | 'E' => 14 | 'F' => 15
  | _ => 0

/-- `uuid.UUID(hex)`: the 128-bit integer denoted by a hex string. -/
def uuidOfHex (s : String) : Nat :=
  s.data.foldl (fun acc c => 16 * acc + hexVal c) 0

/-- `generate_transaction_code` from `utils/transactions.py`: join the
fields with `-`, SHA-256 the UTF-8 bytes, and read the first 32 hex digits
of the digest as a UUID (a 128-bit integer). -/
def generate_transaction_code (fields : List String) : Nat :=
  uuidOfHex (pyTake (hexdigest (sha256 (utf8Encode (String.intercalate "-" fields)))) 32)

/-! ### The orchestrator (`controllers/transactions.py`) -/

/-- An `Account` row (`models/accounts.py`), with the fields the
orchestrator touches. -/
structure AccountRec where
  id : Nat
  number : String
  user_id : Nat
  currency : String
  balance : ℚ
deriving DecidableEq, Inhabited

/-- `RequestTransactionSchema` from `schemas/transactions.py`.  The schema
declares no validators: any amount, tax and currency pass validation. -/
structure RequestTransactionPayload where
  amount : ℚ
  destination_account_number : Option String
  source_account_number : String
  tax : ℚ
  currency : String
  type : TransactionType
deriving DecidableEq, Inhabited

/-- `CreateTransactionSchema` from `schemas/transactions.py`. -/
structure CreateTransactionPayload where
  amount : ℚ
  account_id : Nat
  description : String
  type : TransactionType
  currency : String
  extra : List (String × MetaVal)
deriving DecidableEq, Inhabited

/-- A `Transaction` row (`models/accounts.py`).  The `status` column
defaults to PENDING. -/
structure TransactionRec where
  code : Nat
  type : TransactionType
  amount : ℚ
  description : String
  account_id : Nat
  currency : String
  extra : List (String × MetaVal)
  status : TransactionStatus
deriving DecidableEq, Inhabited

/-- The work item handed to the scheduler by `schedule_transaction`: the
closure captures the transaction, the source account and the metadata. -/
structure QueueItem where
  transaction : TransactionRec
  accountId : Nat
  metadata : List (String × MetaVal)
deriving DecidableEq, Inhabited

/-- The store and queue visible to the orchestrator. -/
structure BankState where
  accounts : List AccountRec
  transactions : List TransactionRec
  queue : List QueueItem
deriving DecidableEq, Inhabited

/-- `_get_user_account_by_number` from `controllers/accounts.py`: the
account with this number owned by this user, else `ObjectNotFound`. -/
def get_user_account_by_number (number : String) (user : Nat)
    (accounts : List AccountRec) : Except PyErr AccountRec :=
  match accounts.find? (fun a => a.number == number && a.user_id == user) with
  | some a => .ok a
  | none => .error (.objectNotFound
      ("No account with number: " ++ number ++ " found for this user"))

/-- Modelled from the spec: `_get_account_by_number` is imported by
`controllers/transactions.py` from `controllers/accounts.py` but is not
defined anywhere under the source tree.  Per the spec the destination
account identity "must resolve to any existing account, not necessarily
owned by caller", with unresolvable accounts a `NotFound` failure. -/
def get_account_by_number (number : String)
    (accounts : List AccountRec) : Except PyErr AccountRec :=
  match accounts.find? (fun a => a.number == number) with
  | some a => .ok a
  | none => .error (.objectNotFound
      ("No account with number: " ++ number ++ " found"))

/-- The bank name constant of `controllers/transactions.py`. -/
def BANK_NAME : String :=
  "Some Bank"

/-- The metadata dict built by `initiate_transaction`: sender, the
destination's number under the key `target_account_number` (or `None`),
the bank name, and the tax. -/
def initiateMetadata (payload : RequestTransactionPayload)
    (dest : Option AccountRec) : List (String × MetaVal) :=
  [("sender", .str payload.source_account_number),
   ("target_account_number",
     match dest with
     | some a => .str a.number
     | none => .pyNone),
   ("bank", .str BANK_NAME),
   ("tax", .num payload.tax)]

/-- The value string of a transaction type, as interpolated into the
description f-string. -/
def TransactionType.valueStr : TransactionType → String
  | .deposit => "deposit"
  | .withdrawal => "withdrawal"
  | .transfer => "transfer"
  | .payment => "payment"

/-- The description f-string built by `initiate_transaction`; a falsy
destination number renders as `for CASH`. -/
def initiateDescription (payload : RequestTransactionPayload)
    (source : AccountRec) : String :=
  payload.type.valueStr ++ " for account " ++ source.number ++ "  " ++
    (match payload.destination_account_number with
     | some d => if d == "" then "for CASH" else d
     | none => "for CASH")

/-- `_create_transaction`: generate the code from the account id, the
currency and the current timestamp, and insert one row whose status takes
the column default PENDING. -/
def create_transaction_rec (p : CreateTransactionPayload) (now : String) :
    TransactionRec :=
  { code := generate_transaction_code [toString p.account_id, p.currency, now]
    type := p.type
    amount := p.amount
    description := p.description
    account_id := p.account_id
    currency := p.currency
    extra := p.extra
    status := .pending }

/-- `schedule_transaction`: enqueue the settlement work item; nothing else
is touched. -/
def schedule_transaction (t : TransactionRec) (source : AccountRec)
    (md : List (String × MetaVal)) (st : BankState) : BankState :=
  { st with queue := st.queue ++ [⟨t, source.id, md⟩] }

/-- The destination-resolution step of `initiate_transaction`: a falsy
`destination_account_number` (absent or empty) resolves to no destination,
otherwise the account is looked up by number. -/
def resolveDestination (payload : RequestTransactionPayload)
    (accounts : List AccountRec) : Except PyErr (Option AccountRec) :=
  match payload.destination_account_number with
  | some d =>
    if d == "" then .ok none
    else
      match get_account_by_number d accounts with
      | .ok a => .ok (some a)
      | .error e => .error e
  | none => .ok none

/-- `initiate_transaction` from `controllers/transactions.py`: resolve the
caller's source account, optionally resolve the destination, build the
metadata, create exactly one transaction row for `amount + tax`, enqueue
settlement, and return the new row.  The raised error (if any) is paired
with the store as it stood when the error was raised. -/
def initiate_transaction (payload : RequestTransactionPayload) (user : Nat)
    (st : BankState) (now : String) : Except PyErr TransactionRec × BankState :=
  match get_user_account_by_number payload.source_account_number user st.accounts with
  | .error e => (.error e, st)
  | .ok source =>
    match resolveDestination payload st.accounts with
    | .error e => (.error e, st)
    | .ok dest =>
      let md := initiateMetadata payload dest
      let tp : CreateTransactionPayload :=
        { amount := payload.amount + payload.tax
          account_id := source.id
          description := initiateDescription payload source
          type := payload.type
          currency := payload.currency
          extra := md }
      let t := create_transaction_rec tp now
      let st1 : BankState := { st with transactions := st.transactions ++ [t] }
      (.ok t, schedule_transaction t source md st1)

/-! ### Concrete stores and payloads used by witnesses and counterexamples -/

/-- A session with account 1 at balance 10 and account 2 at balance 3. -/
def balEx : Balances :=
  fun i => if i = 1 then some 10 else if i = 2 then some 3 else none

/-- Transfer metadata that does name a target account id. -/
def mdEx : List (String × MetaVal) :=
  [("target_account_id", .int 2)]

/-- A store with one USD account, number ACC1, owned by user 7. -/
def stEx : BankState :=
  ⟨[⟨1, "ACC1", 7, "USD", 100⟩], [], []⟩

/-- A cash withdrawal request of 25 with tax 5 from ACC1. -/
def payloadEx : RequestTransactionPayload :=
  ⟨25, none, "ACC1", 5, "USD", .withdrawal⟩

/-- A fixed request timestamp. -/
def nowEx : String :=
  "2024-01-01T00:00:00"

/-- The orchestrator's result on the example request. -/
def rEx : Except PyErr TransactionRec × BankState :=
  initiate_transaction payloadEx 7 stEx nowEx

/-- The transaction row the example request creates. -/
def tEx : TransactionRec :=
  match rEx.1 with
  | .ok t => t
  | .error _ => default

/-- A store with a USD account and a EUR account of different owners. -/
def stEx2 : BankState :=
  ⟨[⟨1, "ACC1", 7, "USD", 100⟩, ⟨2, "ACC2", 8, "EUR", 50⟩], [], []⟩

/-- A transfer request with a negative amount, between accounts whose
currencies differ. -/
def payloadBad : RequestTransactionPayload :=
  ⟨-5, some "ACC2", "ACC1", 0, "USD", .transfer⟩

/-- The orchestrator's result on the invalid request. -/
def rBad : Except PyErr TransactionRec × BankState :=
  initiate_transaction payloadBad 7 stEx2 nowEx

/-- The transaction row the invalid request nevertheless creates. -/
def tBad : TransactionRec :=
  match rBad.1 with
  | .ok t => t
  | .error _ => default

/-! ### Theorems -/

/-- Claim C9: two distinct ordered field tuples can receive the same
transaction code, because the fields are joined with a hyphen before
hashing: the one-field tuple with entry a-b and the two-field tuple with
entries a, b hash the same input. -/
theorem generate_code_separator_collision :
    generate_transaction_code ["a-b"] = generate_transaction_code ["a", "b"] ∧
    (["a-b"] : List String) ≠ ["a", "b"] := by
  constructor
  · have h : String.intercalate "-" ["a-b"] = String.intercalate "-" ["a", "b"] := by
      decide
    unfold generate_transaction_code
    rw [h]
  · decide

/-- Claim C10: the orchestrator stores the counterparty under the metadata
key target_account_number, while the transfer strategy reads the key
target_account_id and raises when it is absent; hence every
orchestrator-initiated transfer settlement fails before any balance
mutation: the balances are returned unchanged and the trace is empty. -/
theorem orchestrated_transfer_never_settles
    (bal : Balances) (sourceId : Nat) (amount : ℚ)
    (payload : RequestTransactionPayload) (dest : Option AccountRec)
    (st : TransactionStatus) :
    transferExecute bal sourceId amount (initiateMetadata payload dest) st =
      ⟨.error (.valueError "Target account ID must be specified for transfers"),
        bal, st, []⟩ := by
  cases dest <;> rfl

/-- Claim C8: the strategy selector is not total over the TransactionType
enumeration: `TransactionFactory.create` compares against the nonexistent
member CREDIT and enumerates only WITHDRAWAL and TRANSFER, so the members
DEPOSIT and PAYMENT are rejected with an error. -/
theorem factory_rejects_enum_members :
    TransactionFactory.create .deposit =
      .error (.valueError "Unknown transaction type: TransactionType.DEPOSIT") ∧
    TransactionFactory.create .payment =
      .error (.valueError "Unknown transaction type: TransactionType.PAYMENT") ∧
    TransactionFactory.create .withdrawal = .ok .withdrawalStrategy ∧
    TransactionFactory.create .transfer = .ok .transferStrategy :=
  ⟨rfl, rfl, rfl, rfl⟩

/-- Claim C3, counterexample: a withdrawal of 1 from balance 0 raises the
insufficient-funds error and leaves the balance unchanged, but the
transaction's status stays PENDING; it does not end FAILED as claimed. -/
theorem withdraw_insufficient_not_marked_failed :
    (withdrawExecute 0 1 .pending).outcome =
      .error (.valueError "Insufficient funds") ∧
    (withdrawExecute 0 1 .pending).balance = 0 ∧
    (withdrawExecute 0 1 .pending).status = .pending ∧
    TransactionStatus.pending ≠ .failed := by
  refine ⟨rfl, rfl, rfl, by decide⟩

/-- Claim C3, amended: a withdrawal whose amount strictly exceeds the
current balance raises the insufficient-funds error and performs no debit,
and the transaction's status is left as it was (the strategy never writes
it, so the status stays PENDING rather than ending FAILED). -/
theorem withdraw_insufficient_leaves_state
    (balance amount : ℚ) (st : TransactionStatus) (h : balance < amount) :
    withdrawExecute balance amount st =
      ⟨.error (.valueError "Insufficient funds"), balance, st⟩ := by
  unfold withdrawExecute
  rw [if_pos h]

/-- Witness for the amended claim C3 at balance 0, amount 1. -/
theorem withdraw_insufficient_leaves_state_witness :
    withdrawExecute 0 1 .pending =
      ⟨.error (.valueError "Insufficient funds"), 0, .pending⟩ :=
  withdraw_insufficient_leaves_state 0 1 .pending (by norm_num)

/-- Claim C4, counterexample: a concrete transfer of 5 from account 1 to
account 2 completes successfully and mutates balances, yet its trace never
acquires the locks of either account: the spec's lock-before-mutation
discipline is violated by the code. -/
theorem transfer_mutates_without_locks :
    (transferExecute balEx 1 5 mdEx .pending).outcome = .ok () ∧
    (transferExecute balEx 1 5 mdEx .pending).events.any isBalanceMutation = true ∧
    checkLocks (construct_resource_lock_key 1) (construct_resource_lock_key 2) []
      (transferExecute balEx 1 5 mdEx .pending).events = false :=
  ⟨rfl, rfl, rfl⟩

/-- Claim C4, amended: `TransferTransaction.execute` acquires no locks at
all — its trace contains no lock acquisition on any execution path, so its
balance mutations happen without any lock held and in no acquisition
order. -/
theorem transfer_takes_no_locks
    (bal : Balances) (sourceId : Nat) (amount : ℚ)
    (md : List (String × MetaVal)) (st : TransactionStatus) :
    (transferExecute bal sourceId amount md st).events.all
      (fun e => !isLockAcquire e) = true := by
  rcases htgt : lookupMeta md "target_account_id" with s | q | n | _ <;>
    simp only [transferExecute, htgt]
  · split <;> rfl
  · split <;> rfl
  · split
    · rcases hb : bal sourceId with _ | sb
      · rfl
      · dsimp only
        split
        · rfl
        · rcases ht2 : updateBal bal sourceId (sb - amount) n with _ | tb <;> rfl
    · rfl
  · rfl

/-- The shape of a transfer execution that completed without error: the
source row existed with sufficient balance, the target row existed after
the debit, and the final balances are the double update. -/
lemma transferExecute_ok_shape
    (bal : Balances) (sourceId tid : Nat) (amount : ℚ)
    (md : List (String × MetaVal)) (st : TransactionStatus)
    (htgt : lookupMeta md "target_account_id" = .int tid)
    (hok : (transferExecute bal sourceId amount md st).outcome = .ok ()) :
    ∃ sb tb, bal sourceId = some sb ∧ ¬ sb < amount ∧
      updateBal bal sourceId (sb - amount) tid = some tb ∧
      (transferExecute bal sourceId amount md st).balances =
        updateBal (updateBal bal sourceId (sb - amount)) tid (tb + amount) := by
  simp only [transferExecute, htgt] at hok ⊢
  split at hok
  case isTrue h =>
    rw [if_pos h]
    rcases hb : bal sourceId with _ | sb
    · rw [hb] at hok
      simp at hok
    · rw [hb] at hok
      dsimp only at hok ⊢
      by_cases hlt : sb < amount
      · rw [if_pos hlt] at hok
        simp at hok
      · rw [if_neg hlt] at hok ⊢
        rcases htb : updateBal bal sourceId (sb - amount) tid with _ | tb
        · rw [htb] at hok
          simp at hok
        · exact ⟨sb, tb, rfl, hlt, htb, rfl⟩
  case isFalse h => simp at hok

/-- Claim C1: a transfer execution that completes without error conserves
the sum of the source and destination balances: the source is debited and
the destination credited by the same amount. -/
theorem transfer_conserves_sum
    (bal : Balances) (sourceId tid : Nat) (amount : ℚ)
    (md : List (String × MetaVal)) (st : TransactionStatus)
    (htgt : lookupMeta md "target_account_id" = .int tid)
    (hok : (transferExecute bal sourceId amount md st).outcome = .ok ()) :
    getBal (transferExecute bal sourceId amount md st).balances sourceId +
      getBal (transferExecute bal sourceId amount md st).balances tid =
      getBal bal sourceId + getBal bal tid := by
  obtain ⟨sb, tb, hb, hlt, htb, hbal⟩ :=
    transferExecute_ok_shape bal sourceId tid amount md st htgt hok
  rw [hbal]
  by_cases hst : tid = sourceId
  · subst hst
    have htb2 : sb - amount = tb := by
      simpa [updateBal] using htb
    simp [getBal, updateBal, hb]
    linarith [htb2]
  · have htb2 : bal tid = some tb := by
      simpa [updateBal, hst] using htb
    have hs1 : sourceId ≠ tid := fun hcontra => hst hcontra.symm
    simp [getBal, updateBal, hb, htb2, hst, hs1]

/-- Witness for claim C1: the transfer of 5 from account 1 (balance 10) to
account 2 (balance 3) conserves the total of 13. -/
theorem transfer_conserves_sum_witness :
    getBal (transferExecute balEx 1 5 mdEx .pending).balances 1 +
      getBal (transferExecute balEx 1 5 mdEx .pending).balances 2 =
      getBal balEx 1 + getBal balEx 2 :=
  transfer_conserves_sum balEx 1 2 5 mdEx .pending rfl rfl

/-- Updating one balance with a non-negative value preserves
non-negativity of the whole session. -/
lemma allNonneg_updateBal (bal : Balances) (i : Nat) (v : ℚ)
    (hv : 0 ≤ v) (h : allNonneg bal) : allNonneg (updateBal bal i v) := by
  intro j b hb
  unfold updateBal at hb
  split at hb
  · injection hb with hb2
    rw [← hb2]
    exact hv
  · exact h j b hb

/-- On every execution path, the transfer strategy keeps all balances
non-negative when the amount is non-negative. -/
lemma transferExecute_balances_nonneg (bal : Balances) (i : Nat) (a : ℚ)
    (md : List (String × MetaVal)) (st : TransactionStatus)
    (ha : 0 ≤ a) (h : allNonneg bal) :
    allNonneg (transferExecute bal i a md st).balances := by
  rcases htgt : lookupMeta md "target_account_id" with s | q | n | _ <;>
    simp only [transferExecute, htgt]
  · split <;> exact h
  · split <;> exact h
  · split
    · rcases hb : bal i with _ | sb
      · exact h
      · dsimp only
        by_cases hlt : sb < a
        · rw [if_pos hlt]
          exact h
        · rw [if_neg hlt]
          have hsub : 0 ≤ sb - a := sub_nonneg.mpr (le_of_not_lt hlt)
          have h1 : allNonneg (updateBal bal i (sb - a)) :=
            allNonneg_updateBal bal i (sb - a) hsub h
          rcases htb : updateBal bal i (sb - a) n with _ | tb
          · exact h1
          · have htb0 : 0 ≤ tb := h1 n tb htb
            exact allNonneg_updateBal _ n (tb + a) (by linarith) h1
    · exact h
  · exact h

/-- One engine-applied mutation with a non-negative amount preserves
non-negativity of all balances. -/
lemma engineStep_nonneg (bal : Balances) (op : EngineOp)
    (ha : 0 ≤ op.amount) (h : allNonneg bal) : allNonneg (engineStep bal op) := by
  cases op with
  | credit i a =>
    have ha2 : 0 ≤ a := by simpa [EngineOp.amount] using ha
    dsimp only [engineStep]
    rcases hb : bal i with _ | b
    · exact h
    · have hb0 := h i b hb
      exact allNonneg_updateBal bal i _ (by simp only [creditExecute]; linarith) h
  | withdraw i a =>
    dsimp only [engineStep]
    rcases hb : bal i with _ | b
    · exact h
    · have hb0 := h i b hb
      by_cases hlt : b < a
      · simp only [withdrawExecute, if_pos hlt]
        exact allNonneg_updateBal bal i b hb0 h
      · simp only [withdrawExecute, if_neg hlt]
        exact allNonneg_updateBal bal i _ (sub_nonneg.mpr (le_of_not_lt hlt)) h
  | transfer i a md =>
    have ha2 : 0 ≤ a := by simpa [EngineOp.amount] using ha
    exact transferExecute_balances_nonneg bal i a md .pending ha2 h

/-- Claim C2: starting from non-negative balances, no sequence of
engine-applied mutations (credits, withdrawals, transfer settlements) with
non-negative transaction amounts ever drives a balance negative; and a
withdrawal or transfer whose amount strictly exceeds the current balance
performs no debit at all. -/
theorem engine_balances_nonneg :
    (∀ (ops : List EngineOp) (bal : Balances),
        (∀ op ∈ ops, 0 ≤ op.amount) → allNonneg bal →
        allNonneg (applyOps ops bal)) ∧
    (∀ (balance amount : ℚ) (st : TransactionStatus),
        balance < amount → (withdrawExecute balance amount st).balance = balance) ∧
    (∀ (bal : Balances) (i : Nat) (a : ℚ) (md : List (String × MetaVal))
        (st : TransactionStatus) (sb : ℚ), bal i = some sb → sb < a →
        (transferExecute bal i a md st).balances = bal) := by
  refine ⟨?_, ?_, ?_⟩
  · intro ops
    induction ops with
    | nil =>
      intro bal _ h
      simpa [applyOps] using h
    | cons op rest ih =>
      intro bal hops h
      have hstep := engineStep_nonneg bal op (hops op (by simp)) h
      have hrest : ∀ o ∈ rest, 0 ≤ EngineOp.amount o := fun o ho => hops o (by simp [ho])
      simpa [applyOps] using ih (engineStep bal op) hrest hstep
  · intro b a st hlt
    simp [withdrawExecute, hlt]
  · intro bal i a md st sb hb hlt
    rcases htgt : lookupMeta md "target_account_id" with s | q | n | _ <;>
      simp only [transferExecute, htgt]
    · split <;> rfl
    · split <;> rfl
    · split
      · rw [hb]
        dsimp only
        rw [if_pos hlt]
      · rfl
    · rfl

/-- Witness for claim C2: a credit, an over-large withdrawal and a transfer
applied to the concrete session keep every balance non-negative. -/
theorem engine_balances_nonneg_witness :
    allNonneg (applyOps
      [EngineOp.credit 1 5, EngineOp.withdraw 1 20, EngineOp.transfer 1 2 mdEx]
      balEx) := by
  apply engine_balances_nonneg.1
  · intro op hop
    fin_cases hop <;> norm_num [EngineOp.amount]
  · intro i b hb
    unfold balEx at hb
    by_cases h1 : i = 1
    · rw [if_pos h1] at hb
      injection hb with hb2
      rw [← hb2]
      norm_num
    · rw [if_neg h1] at hb
      by_cases h2 : i = 2
      · rw [if_pos h2] at hb
        injection hb with hb2
        rw [← hb2]
        norm_num
      · rw [if_neg h2] at hb
        cases hb

/-- Claim C5: a request accepted by `initiate_transaction` creates exactly
one transaction row, in PENDING status, whose recorded amount is the
request amount plus the request tax; the returned row is that row, the
account balances are untouched, and settlement is only enqueued. -/
theorem initiate_creates_single_pending
    (payload : RequestTransactionPayload) (user : Nat) (st : BankState)
    (now : String) (t : TransactionRec) (stF : BankState)
    (h : initiate_transaction payload user st now = (.ok t, stF)) :
    stF.transactions = st.transactions ++ [t] ∧
    t.status = .pending ∧
    t.amount = payload.amount + payload.tax ∧
    stF.accounts = st.accounts ∧
    ∃ item : QueueItem, stF.queue = st.queue ++ [item] ∧ item.transaction = t := by
  simp only [initiate_transaction] at h
  split at h
  next e heq => simp at h
  next source heq =>
    split at h
    next e2 heq2 => simp at h
    next dest heq2 =>
      rw [Prod.mk.injEq] at h
      obtain ⟨h1, h2⟩ := h
      rw [Except.ok.injEq] at h1
      subst h1
      subst h2
      exact ⟨rfl, rfl, rfl, rfl, ⟨_, rfl, rfl⟩⟩

/-- Witness for claim C5: the concrete withdrawal request of 25 with tax 5
creates one PENDING row of amount 30, mutating no balance. -/
theorem initiate_creates_single_pending_witness :
    (rEx.2).transactions = stEx.transactions ++ [tEx] ∧
    tEx.status = .pending ∧
    tEx.amount = payloadEx.amount + payloadEx.tax ∧
    (rEx.2).accounts = stEx.accounts ∧
    ∃ item : QueueItem, (rEx.2).queue = stEx.queue ++ [item] ∧
      item.transaction = tEx :=
  initiate_creates_single_pending payloadEx 7 stEx nowEx tEx rEx.2 rfl

/-- A failing source lookup always fails as ObjectNotFound. -/
lemma get_user_account_error_shape (number : String) (user : Nat)
    (accounts : List AccountRec) (e : PyErr)
    (h : get_user_account_by_number number user accounts = .error e) :
    ∃ msg, e = .objectNotFound msg := by
  unfold get_user_account_by_number at h
  split at h
  · cases h
  · injection h with h2
    exact ⟨_, h2.symm⟩

/-- A failing destination lookup always fails as ObjectNotFound. -/
lemma get_account_error_shape (number : String)
    (accounts : List AccountRec) (e : PyErr)
    (h : get_account_by_number number accounts = .error e) :
    ∃ msg, e = .objectNotFound msg := by
  unfold get_account_by_number at h
  split at h
  · cases h
  · injection h with h2
    exact ⟨_, h2.symm⟩

/-- A failing destination resolution always fails as ObjectNotFound. -/
lemma resolveDestination_error_shape (payload : RequestTransactionPayload)
    (accounts : List AccountRec) (e : PyErr)
    (h : resolveDestination payload accounts = .error e) :
    ∃ msg, e = .objectNotFound msg := by
  unfold resolveDestination at h
  split at h
  next d hd =>
    split at h
    · cases h
    · split at h
      next a heq => cases h
      next e2 heq =>
        injection h with h2
        subst h2
        exact get_account_error_shape d accounts _ heq
  next hnone => cases h

/-- Claim C6, amended: when the source account does not resolve to an
account of the caller, `initiate_transaction` fails with the NotFound error
and creates nothing (the store is unchanged); no further validation exists:
every error the orchestrator can raise is a NotFound error, never an
Invalid rejection of a non-positive amount or of mismatched currencies. -/
theorem initiate_rejects_only_unresolvable :
    (∀ (payload : RequestTransactionPayload) (user : Nat) (st : BankState)
        (now : String) (e : PyErr),
        get_user_account_by_number payload.source_account_number user st.accounts
          = .error e →
        initiate_transaction payload user st now = (.error e, st)) ∧
    (∀ (payload : RequestTransactionPayload) (user : Nat) (st : BankState)
        (now : String) (e : PyErr),
        (initiate_transaction payload user st now).1 = .error e →
        ∃ msg, e = .objectNotFound msg) := by
  constructor
  · intro payload user st now e he
    simp only [initiate_transaction, he]
  · intro payload user st now e he
    simp only [initiate_transaction] at he
    split at he
    next e2 heq =>
      dsimp only at he
      injection he with h2
      subst h2
      exact get_user_account_error_shape _ user st.accounts _ heq
    next source heq =>
      split at he
      next e2 heq2 =>
        dsimp only at he
        injection he with h2
        subst h2
        exact resolveDestination_error_shape payload st.accounts _ heq2
      next dest heq2 =>
        dsimp only at he
        cases he

/-- Witness for the amended claim C6: user 9 owns no account ACC1, so the
concrete request fails with the NotFound error and the store is kept. -/
theorem initiate_rejects_only_unresolvable_witness :
    initiate_transaction payloadEx 9 stEx nowEx =
      (.error (.objectNotFound "No account with number: ACC1 found for this user"),
        stEx) :=
  initiate_rejects_only_unresolvable.1 payloadEx 9 stEx nowEx _ rfl

/-- Claim C6, counterexample: a transfer request with amount -5 between a
USD source and a EUR destination — both conditions the claim says are
rejected as Invalid — is accepted, and a transaction row is created. -/
theorem initiate_accepts_invalid_request :
    payloadBad.amount ≤ 0 ∧
    (get_user_account_by_number payloadBad.source_account_number 7
        stEx2.accounts).toOption.map AccountRec.currency = some "USD" ∧
    (get_account_by_number "ACC2" stEx2.accounts).toOption.map
        AccountRec.currency = some "EUR" ∧
    rBad.1 = .ok tBad ∧
    (rBad.2).transactions = stEx2.transactions ++ [tBad] := by
  refine ⟨by norm_num [payloadBad], rfl, rfl, rfl, rfl⟩

/-- Every character parses to a hex digit value below 16. -/
lemma hexVal_lt (c : Char) : hexVal c < 16 := by
  unfold hexVal
  split <;> norm_num

/-- The hex-parsing fold stays below the power of 16 matching the number
of digits consumed. -/
lemma hexFoldl_lt (l : List Char) : ∀ (acc k : Nat), acc < 16 ^ k →
    l.foldl (fun a c => 16 * a + hexVal c) acc < 16 ^ (k + l.length) := by
  induction l with
  | nil =>
    intro acc k h
    simpa using h
  | cons c t ih =>
    intro acc k h
    have hc := hexVal_lt c
    have hpow : 16 ^ (k + 1) = 16 * 16 ^ k := by ring
    have hstep : 16 * acc + hexVal c < 16 ^ (k + 1) := by omega
    have hrec := ih (16 * acc + hexVal c) (k + 1) hstep
    have hexp : k + 1 + t.length = k + (c :: t).length := by
      simp [List.length_cons]
      omega
    rw [hexp] at hrec
    simpa [List.foldl_cons] using hrec

/-- The integer denoted by a hex string is bounded by 16 to its length. -/
lemma uuidOfHex_lt (s : String) : uuidOfHex s < 16 ^ s.data.length := by
  have h := hexFoldl_lt s.data 0 0 (by norm_num)
  simpa [uuidOfHex] using h

/-- A SHA-256 digest always has exactly 32 bytes. -/
lemma sha256_length (m : List Nat) : (sha256 m).length = 32 := by
  simp [sha256, wordBytes]

/-- A hex rendering has two characters per byte. -/
lemma hexdigest_data_length (bs : List Nat) :
    (hexdigest bs).data.length = 2 * bs.length := by
  show (bs.flatMap byteHex).length = 2 * bs.length
  induction bs with
  | nil => rfl
  | cons b t ih =>
    simp only [List.flatMap_cons, List.length_append, List.length_cons, ih, byteHex]
    simp
    omega

/-- Claim C7: `generate_transaction_code` is deterministic — the same
ordered field tuple always yields the same code — and the code is a
fixed-length 128-bit identifier: the hex slice taken from the SHA-256
digest of the joined fields always has exactly 32 digits, and the code's
value is below 2 to the 128. -/
theorem generate_code_deterministic_and_128bit (fields : List String) :
    generate_transaction_code fields = generate_transaction_code fields ∧
    (pyTake (hexdigest (sha256 (utf8Encode (String.intercalate "-" fields))))
      32).data.length = 32 ∧
    generate_transaction_code fields < 2 ^ 128 := by
  refine ⟨rfl, ?_, ?_⟩
  · have h1 : (hexdigest (sha256 (utf8Encode
        (String.intercalate "-" fields)))).data.length = 64 := by
      rw [hexdigest_data_length, sha256_length]
    show (List.take 32 _).length = 32
    rw [List.length_take, h1]
    decide
  · have h2 := uuidOfHex_lt
      (pyTake (hexdigest (sha256 (utf8Encode (String.intercalate "-" fields)))) 32)
    have h3 : (pyTake (hexdigest (sha256 (utf8Encode
        (String.intercalate "-" fields)))) 32).data.length ≤ 32 := by
      show (List.take 32 _).length ≤ 32
      rw [List.length_take]
      exact Nat.min_le_left _ _
    have h4 : (16 : Nat) ^ (pyTake (hexdigest (sha256 (utf8Encode
        (String.intercalate "-" fields)))) 32).data.length ≤ 16 ^ 32 :=
      Nat.pow_le_pow_right (by norm_num) h3
    have h5 : (16 : Nat) ^ 32 = 2 ^ 128 := by norm_num
    calc generate_transaction_code fields
        < 16 ^ (pyTake (hexdigest (sha256 (utf8Encode
            (String.intercalate "-" fields)))) 32).data.length := h2
      _ ≤ 16 ^ 32 := h4
      _ = 2 ^ 128 := h5

end Bank
